import Mathlib

/-!
Verification of the context-aware timebox CLI planner (`src/planner.py`).

Calendar days are encoded as integers (epoch day numbers).  The Python code
manipulates ISO day-strings (`str(date)`) and only ever compares them for
equality and membership; `str` on dates is injective and order-preserving,
so the integer encoding is faithful (`today - i` encodes
`today - timedelta(days=i)`).

External effects (the `git` subprocess results, the GitHub API results, the
diff summary, the clock, and user keyboard input) enter the model as fields
of an explicit environment record; everything downstream of those inputs is
translated directly from the source.
-/

namespace Timebox

/-- A session record as built by `SessionLogger.log_session`
(`planner.py` lines 144-149): timestamp (ISO string), suggestion label,
intensity, session type. -/
structure SessionEntry where
  timestamp : String
  suggestion : String
  intensity : Nat
  session_type : String
deriving DecidableEq, Repr

/-- A mood record as built by `SessionLogger.log_mood`
(`planner.py` lines 151-156). -/
structure MoodEntry where
  timestamp : String
  mood : Int
deriving DecidableEq, Repr

/-- The observable state of one JSON store file.  `parseable l` is a file
whose content `json.load`s to the list `l`; `corrupt` is a file that exists
but whose content raises inside `json.load` (or a missing/unreadable file).
`json.dump` followed by `json.load` on a list of flat records is the
identity, which is what `parseable` captures. -/
inductive StoreContent (α : Type)
  | parseable (entries : List α)
  | corrupt
deriving DecidableEq, Repr

/-- `SessionLogger._load_json` (`planner.py` lines 169-174): return the
parsed list, or `[]` on any exception. -/
def load_json {α : Type} : StoreContent α → List α
  | .parseable l => l
  | .corrupt => []

/-- `SessionLogger._save_json` (`planner.py` lines 176-178): rewrite the
file with the serialized list. -/
def save_json {α : Type} (l : List α) : StoreContent α := .parseable l

/-- `SessionLogger.log_session` (`planner.py` lines 144-149): build the
entry, load the current list, append, save. -/
def log_session (store : StoreContent SessionEntry) (now suggestion : String)
    (intensity : Nat) (session_type : String) : StoreContent SessionEntry :=
  save_json (load_json store ++ [⟨now, suggestion, intensity, session_type⟩])

/-- `SessionLogger.log_mood` (`planner.py` lines 151-156). -/
def log_mood (store : StoreContent MoodEntry) (now : String) (mood_score : Int) :
    StoreContent MoodEntry :=
  save_json (load_json store ++ [⟨now, mood_score⟩])

/-- `QUIET_HOURS = (22, 7)` (`planner.py` line 24). -/
def QUIET_HOURS : Nat × Nat := (22, 7)

/-- `is_in_quiet_hours` (`planner.py` lines 36-42), as a function of the
current hour. -/
def is_in_quiet_hours (hour : Nat) : Bool :=
  let start := QUIET_HOURS.1
  let stop := QUIET_HOURS.2
  if start < stop then decide (start ≤ hour ∧ hour < stop)
  else decide (hour ≥ start ∨ hour < stop)

/-- The planner's external inputs: clock, git-root detection, the results
of the local and remote commit-date fetches, the token, and the diff
summary numbers. -/
structure Env where
  /-- `datetime.now().hour`. -/
  hour : Nat
  /-- `datetime.today().date()` as an epoch day number. -/
  today : Int
  /-- whether `BASE_DIR` is set (a git root was found). -/
  baseDir : Bool
  /-- result of `GitAnalyzer.get_local_commit_dates`: one day per commit,
  duplicates allowed (`git log --pretty=format:%ad --date=short`). -/
  localDates : List Int
  /-- whether `GITHUB_PAT` is configured (`self.token` is truthy). -/
  token : Bool
  /-- result of `GitAnalyzer.get_all_commit_dates`: the deduplicated
  day-set fetched from the GitHub API. -/
  remoteDates : List Int
  /-- insertions + deletions parsed from `git diff --shortstat HEAD~1 HEAD`
  (each summand 0 when its pattern is absent), or 0 when the subprocess
  fails. -/
  diffIntensity : Nat
deriving Repr

/-- The source-selection step of `TimeboxPlanner.get_commit_count_last_days`
(`planner.py` lines 190-195): prefer the local dates; if the local list is
empty or shorter than 3 entries and a token exists, replace it wholesale
with the remote dates. -/
def chosenDates (env : Env) : List Int :=
  let dates := if env.baseDir then env.localDates else []
  if (dates.isEmpty || dates.length < 3) && env.token then env.remoteDates
  else dates

/-- The window loop of `get_commit_count_last_days` (`planner.py` lines
199-209): `for i in range(days)` walking `today - i`, adding the
multiplicity of each day to `count` and appending each day with at least
one commit to `recent`.  `fuel` is the number of remaining iterations. -/
def windowAux (dates : List Int) (today : Int) (i : Nat) (fuel : Nat)
    (count : Nat) (recent : List Int) : Nat × List Int :=
  match fuel with
  | 0 => (count, recent)
  | fuel + 1 =>
    let day := today - (i : Int)
    let day_commits := dates.count day
    if day_commits > 0 then
      windowAux dates today (i + 1) fuel (count + day_commits) (recent ++ [day])
    else
      windowAux dates today (i + 1) fuel count recent

/-- `TimeboxPlanner.get_commit_count_last_days` (`planner.py` lines
189-209): choose a source, return `(0, [])` when it is empty, otherwise
run the window loop. -/
def get_commit_count_last_days (env : Env) (days : Nat := 7) : Nat × List Int :=
  let dates := chosenDates env
  if dates.isEmpty then (0, [])
  else windowAux dates env.today 0 days 0 []

/-- The loop of `TimeboxPlanner.calculate_streak` (`planner.py` lines
211-223): `for i in range(100)`; count while `today - i` is in the list;
on the first missing day return the counter (the `i == 0` break and the
`return streak` both yield the current counter). -/
def streakLoop (commit_dates : List Int) (today : Int) (i : Nat)
    (streak : Nat) (fuel : Nat) : Nat :=
  match fuel with
  | 0 => streak
  | fuel + 1 =>
    if (today - (i : Int)) ∈ commit_dates then
      streakLoop commit_dates today (i + 1) (streak + 1) fuel
    else streak

/-- `TimeboxPlanner.calculate_streak` (`planner.py` lines 211-223). -/
def calculate_streak (commit_dates : List Int) (today : Int) : Nat :=
  streakLoop commit_dates today 0 0 100

/-- `TimeboxPlanner.get_work_intensity` (`planner.py` lines 225-242):
0 without a git root, otherwise the parsed insertions + deletions (the
parse result is carried in the environment since it comes from a
subprocess). -/
def get_work_intensity (env : Env) : Nat :=
  if env.baseDir then env.diffIntensity else 0

/-- `TimeboxPlanner.suggest_timebox` (`planner.py` lines 244-253): the
four-row decision table, evaluated top to bottom. -/
def suggest_timebox (commit_count intensity : Nat) : String × String :=
  if commit_count ≥ 20 ∧ intensity > 50 then
    ("High activity: 45 min sprint + 5 min break", "sprint")
  else if commit_count ≥ 10 then
    ("Moderate activity: 60 min deep work + 10 min break", "deep")
  else if commit_count > 0 then
    ("Low activity: 90 min deep work + 15 min break", "deep")
  else
    ("No recent commits: Start with a 25 min Pomodoro + 5 min break", "pomodoro")

/-- Which of the three bodies of `TimeboxPlanner.show_achievements`
(`planner.py` lines 288-304) runs. -/
inductive AchievementMsg
  | epic
  | great
  | keep
deriving DecidableEq, Repr

/-- `TimeboxPlanner.show_achievements` branch selection: the ASCII-art
`streak >= 10` branch, the `streak >= 5` branch, or the default. -/
def show_achievements (streak : Nat) : AchievementMsg :=
  if streak ≥ 10 then .epic
  else if streak ≥ 5 then .great
  else .keep

/-- The interactive answers consumed by one `run`: whether the user types
`y` at the timer prompt, the note text (empty means blank), and the mood
input (`none` when `int()` raises, otherwise the integer typed). -/
structure UserInput where
  startTimer : Bool
  note : String
  moodInput : Option Int
deriving Repr

/-- The persistent stores touched by one `run`. -/
structure Stores where
  sessions : StoreContent SessionEntry
  moods : StoreContent MoodEntry
  notes : List String
deriving Repr

/-- The observable outcome of `TimeboxPlanner.run`. -/
structure RunResult where
  /-- the quiet-hours message was printed (and nothing else happened). -/
  quietMessage : Bool
  /-- the recommendation printed, when one was produced. -/
  suggestion : Option (String × String)
  /-- the streak printed, when one was produced. -/
  streak : Option Nat
  timerStarted : Bool
  stores : Stores
deriving Repr

/-- `TimeboxPlanner.run` (`planner.py` lines 341-379): quiet-hours gate,
then aggregate → intensity → classify → streak → log the session, then the
optional note / mood / timer interaction.  `nowIso` is
`datetime.now().isoformat()` at logging time. -/
def run (env : Env) (nowIso : String) (stores : Stores) (ui : UserInput) :
    RunResult :=
  if is_in_quiet_hours env.hour then
    { quietMessage := true, suggestion := none, streak := none,
      timerStarted := false, stores := stores }
  else
    let cr := get_commit_count_last_days env 7
    let intensity := get_work_intensity env
    let st := suggest_timebox cr.1 intensity
    let streak := calculate_streak cr.2 env.today
    let stores1 : Stores :=
      { stores with
        sessions := log_session stores.sessions nowIso st.1 intensity st.2 }
    if ui.startTimer then
      let stores2 : Stores :=
        if ui.note = "" then stores1
        else { stores1 with notes := stores1.notes ++ [nowIso ++ " - " ++ ui.note] }
      let stores3 : Stores :=
        match ui.moodInput with
        | some m =>
          if 1 ≤ m ∧ m ≤ 5 then
            { stores2 with moods := log_mood stores2.moods nowIso m }
          else stores2
        | none => stores2
      { quietMessage := false, suggestion := some st, streak := some streak,
        timerStarted := true, stores := stores3 }
    else
      { quietMessage := false, suggestion := some st, streak := some streak,
        timerStarted := false, stores := stores1 }

/-- Tier order used by the spec: sprint (2) > deep (1) > pomodoro (0). -/
def tierOf (kind : String) : Nat :=
  if kind = "sprint" then 2
  else if kind = "deep" then 1
  else 0

/-- Day `d` lies within the last `w` calendar days of `today`, today
inclusive: `d ∈ \x7btoday - i | i < w\x7d`. -/
def inWindow (today : Int) (w : Nat) (d : Int) : Bool :=
  decide (today - (w : Int) < d ∧ d ≤ today)

/-- The aggregator environment for the spec's window-accounting example:
2024-01-01 and 2024-01-02 are epoch days 19723 and 19724. -/
def exampleEnv : Env :=
  { hour := 12, today := 19724, baseDir := true,
    localDates := [19723, 19723, 19724], token := false,
    remoteDates := [], diffIntensity := 0 }

/-- An environment whose local log holds 3 commits all on one day
(1 distinct day) while a token is configured and the remote result is a
different day. -/
def oneDayEnv : Env :=
  { hour := 12, today := 19724, baseDir := true,
    localDates := [19724, 19724, 19724], token := true,
    remoteDates := [19720], diffIntensity := 0 }

/-- The stores as they stand right after `SessionLogger.__init__` on a fresh
data directory: empty session and mood sequences, empty note log. -/
def stores0 : Stores :=
  { sessions := .parseable [], moods := .parseable [], notes := [] }

/-- A user who answers `n` at the timer prompt. -/
def ui0 : UserInput := { startTimer := false, note := "", moodInput := none }

/- ### Helper lemmas -/

lemma streakLoop_add (ds : List Int) (t : Int) :
    ∀ (fuel i acc : Nat), streakLoop ds t i acc fuel = acc + streakLoop ds t i 0 fuel := by
  intro fuel
  induction fuel with
  | zero => intro i acc; simp [streakLoop]
  | succ n ih =>
    intro i acc
    by_cases h : (t - (i : Int)) ∈ ds
    · rw [streakLoop, streakLoop, if_pos h, if_pos h, ih (i + 1) (acc + 1), ih (i + 1) 1]
      omega
    · simp [streakLoop, h]

lemma streakLoop_le (ds : List Int) (t : Int) :
    ∀ (fuel i acc : Nat), streakLoop ds t i acc fuel ≤ acc + fuel := by
  intro fuel
  induction fuel with
  | zero => intro i acc; simp [streakLoop]
  | succ n ih =>
    intro i acc
    by_cases h : (t - (i : Int)) ∈ ds
    · simp only [streakLoop, if_pos h]
      have := ih (i + 1) (acc + 1)
      omega
    · simp [streakLoop, h]

lemma streakLoop_mem (ds : List Int) (t : Int) :
    ∀ (fuel i j : Nat), j < streakLoop ds t i 0 fuel → (t - ((i + j : Nat) : Int)) ∈ ds := by
  intro fuel
  induction fuel with
  | zero => intro i j hj; simp [streakLoop] at hj
  | succ n ih =>
    intro i j hj
    by_cases h : (t - (i : Int)) ∈ ds
    · rw [streakLoop, if_pos h, streakLoop_add] at hj
      match j with
      | 0 => simpa using h
      | j + 1 =>
        have := ih (i + 1) j (by omega)
        have harith : ((i + 1) + j : Nat) = (i + (j + 1) : Nat) := by omega
        rwa [harith] at this
    · rw [streakLoop, if_neg h] at hj
      omega

lemma streakLoop_stop (ds : List Int) (t : Int) :
    ∀ (fuel i : Nat), streakLoop ds t i 0 fuel < fuel →
      (t - ((i + streakLoop ds t i 0 fuel : Nat) : Int)) ∉ ds := by
  intro fuel
  induction fuel with
  | zero => intro i h; omega
  | succ n ih =>
    intro i h
    by_cases hm : (t - (i : Int)) ∈ ds
    · rw [streakLoop, if_pos hm, streakLoop_add] at h ⊢
      have hlt : streakLoop ds t (i + 1) 0 n < n := by omega
      have := ih (i + 1) hlt
      have harith : ((i + 1) + streakLoop ds t (i + 1) 0 n : Nat)
          = (i + (1 + streakLoop ds t (i + 1) 0 n) : Nat) := by omega
      rwa [harith] at this
    · rw [streakLoop, if_neg hm]
      simpa using hm

lemma windowAux_fst (dates : List Int) (t : Int) :
    ∀ (fuel i count : Nat) (recent : List Int),
      (windowAux dates t i fuel count recent).1
        = count + ∑ j ∈ Finset.range fuel, dates.count (t - (i : Int) - (j : Int)) := by
  intro fuel
  induction fuel with
  | zero => intro i count recent; simp [windowAux]
  | succ n ih =>
    intro i count recent
    rw [Finset.sum_range_succ']
    have hshift : ∀ j : Nat, t - ((i + 1 : Nat) : Int) - (j : Int) = t - (i : Int) - ((j + 1 : Nat) : Int) := by
      intro j; push_cast; ring
    by_cases h : dates.count (t - (i : Int)) > 0
    · rw [windowAux, if_pos h, ih]
      rw [Finset.sum_congr rfl fun j _ => congrArg dates.count (hshift j)]
      simp only [Nat.cast_zero, sub_zero]
      omega
    · rw [windowAux, if_neg h, ih]
      rw [Finset.sum_congr rfl fun j _ => congrArg dates.count (hshift j)]
      simp only [Nat.cast_zero, sub_zero]
      omega

lemma windowAux_snd (dates : List Int) (t : Int) :
    ∀ (fuel i count : Nat) (recent : List Int),
      (windowAux dates t i fuel count recent).2
        = recent ++ ((List.range fuel).map (fun j : Nat => t - (i : Int) - (j : Int))).filter
            (fun d => decide (0 < dates.count d)) := by
  intro fuel
  induction fuel with
  | zero => intro i count recent; simp [windowAux]
  | succ n ih =>
    intro i count recent
    have hshift : ((fun j : Nat => t - (i : Int) - (j : Int)) ∘ Nat.succ)
        = fun j : Nat => t - ((i + 1 : Nat) : Int) - (j : Int) := by
      funext j
      simp only [Function.comp_apply]
      push_cast
      ring
    rw [List.range_succ_eq_map, List.map_cons, List.map_map, hshift, List.filter_cons]
    by_cases h : dates.count (t - (i : Int)) > 0
    · rw [windowAux, if_pos h, ih]
      have hd : 0 < dates.count (t - (i : Int) - ((0 : Nat) : Int)) := by
        simpa using h
      have hm : t - (i : Int) ∈ dates := List.count_pos_iff.mp h
      simp [hd, hm, List.append_assoc]
    · rw [windowAux, if_neg h, ih]
      have hd : ¬0 < dates.count (t - (i : Int) - ((0 : Nat) : Int)) := by
        simpa using h
      have hm : t - (i : Int) ∉ dates := fun hmem => h (List.count_pos_iff.mpr hmem)
      simp [hd, hm]

lemma count_eq_length_filter_eq (l : List Int) (a : Int) :
    l.count a = (l.filter (fun d => decide (d = a))).length := by
  rw [List.count, List.countP_eq_length_filter]
  congr 1

lemma length_filter_or (p q : Int → Bool) (l : List Int)
    (h : ∀ x, ¬(p x = true ∧ q x = true)) :
    (l.filter (fun x => p x || q x)).length = (l.filter p).length + (l.filter q).length := by
  induction l with
  | nil => simp
  | cons a l ih =>
    have ha := h a
    simp only [List.filter_cons]
    cases hp : p a <;> cases hq : q a <;>
      simp_all [List.filter_cons] <;> omega

lemma inWindow_succ (t : Int) (w : Nat) (d : Int) :
    inWindow t (w + 1) d = (inWindow t w d || decide (d = t - (w : Int))) := by
  have hiff : (t - ((w + 1 : Nat) : Int) < d ∧ d ≤ t)
      ↔ ((t - (w : Int) < d ∧ d ≤ t) ∨ d = t - (w : Int)) := by
    push_cast
    omega
  have hdec : decide (t - ((w + 1 : Nat) : Int) < d ∧ d ≤ t)
      = decide ((t - (w : Int) < d ∧ d ≤ t) ∨ d = t - (w : Int)) :=
    decide_eq_decide.mpr hiff
  rw [inWindow, inWindow, hdec]
  by_cases h1 : t - (w : Int) < d ∧ d ≤ t <;> by_cases h2 : d = t - (w : Int) <;>
    simp [h1, h2]

lemma sum_count_window (dates : List Int) (t : Int) :
    ∀ w : Nat, (∑ j ∈ Finset.range w, dates.count (t - (j : Int)))
      = (dates.filter (fun d => inWindow t w d)).length := by
  intro w
  induction w with
  | zero =>
    have hnil : dates.filter (fun d => inWindow t 0 d) = [] := by
      refine List.filter_eq_nil_iff.mpr fun d _ => ?_
      simp only [inWindow, decide_eq_true_eq]
      push_cast
      omega
    simp [hnil]
  | succ w ihw =>
    rw [Finset.sum_range_succ, ihw]
    have hcongr : dates.filter (fun d => inWindow t (w + 1) d)
        = dates.filter (fun d => inWindow t w d || decide (d = t - (w : Int))) :=
      List.filter_congr fun d _ => inWindow_succ t w d
    have hdisj : ∀ d : Int, ¬(inWindow t w d = true ∧ decide (d = t - (w : Int)) = true) := by
      intro d hcontra
      obtain ⟨h1, h2⟩ := hcontra
      simp only [inWindow, decide_eq_true_eq] at h1 h2
      omega
    rw [hcongr, length_filter_or _ _ _ hdisj, count_eq_length_filter_eq]

lemma chosenDates_empty_count (env : Env) (w : Nat)
    (h : (chosenDates env).isEmpty = true) :
    get_commit_count_last_days env w = (0, []) := by
  unfold get_commit_count_last_days
  rw [if_pos h]

lemma get_fst (env : Env) (w : Nat) :
    (get_commit_count_last_days env w).1
      = ((chosenDates env).filter (fun d => inWindow env.today w d)).length := by
  unfold get_commit_count_last_days
  by_cases h : (chosenDates env).isEmpty
  · rw [if_pos h]
    rw [List.isEmpty_iff] at h
    simp [h]
  · rw [if_neg h, windowAux_fst]
    have : ∀ j : Nat, env.today - ((0 : Nat) : Int) - (j : Int) = env.today - (j : Int) := by
      intro j; push_cast; ring
    rw [Finset.sum_congr rfl fun j _ => congrArg (chosenDates env).count (this j),
      sum_count_window]
    simp

lemma get_snd_eq (env : Env) (w : Nat) :
    (get_commit_count_last_days env w).2
      = ((List.range w).map (fun j : Nat => env.today - (j : Int))).filter
          (fun d => decide (0 < (chosenDates env).count d)) := by
  unfold get_commit_count_last_days
  by_cases h : (chosenDates env).isEmpty
  · rw [if_pos h]
    rw [List.isEmpty_iff] at h
    show ([] : List Int) = _
    rw [eq_comm, List.filter_eq_nil_iff]
    intro d _
    simp [h]
  · rw [if_neg h, windowAux_snd]
    have : ((fun j : Nat => env.today - ((0 : Nat) : Int) - (j : Int)) : Nat → Int)
        = fun j : Nat => env.today - (j : Int) := by
      funext j; push_cast; ring
    rw [this]
    simp

lemma get_snd_mem (env : Env) (w : Nat) (d : Int) :
    d ∈ (get_commit_count_last_days env w).2
      ↔ (inWindow env.today w d = true ∧ d ∈ chosenDates env) := by
  rw [get_snd_eq]
  simp only [List.mem_filter, List.mem_map, List.mem_range, decide_eq_true_eq,
    List.count_pos_iff, inWindow]
  constructor
  · rintro ⟨⟨j, hj, rfl⟩, hmem⟩
    refine ⟨?_, hmem⟩
    omega
  · rintro ⟨hw, hmem⟩
    refine ⟨⟨(env.today - d).toNat, ?_, ?_⟩, hmem⟩
    · omega
    · omega

lemma get_snd_nodup (env : Env) (w : Nat) :
    (get_commit_count_last_days env w).2.Nodup := by
  rw [get_snd_eq]
  refine List.Nodup.filter _ (List.Nodup.map ?_ (List.nodup_range w))
  intro a b hab
  simp only at hab
  omega

lemma calculate_streak_le (ds : List Int) (t : Int) : calculate_streak ds t ≤ 100 := by
  have := streakLoop_le ds t 100 0 0
  simpa [calculate_streak] using this

lemma calculate_streak_today_absent (ds : List Int) (t : Int) (h : t ∉ ds) :
    calculate_streak ds t = 0 := by
  rw [calculate_streak, streakLoop]
  rw [if_neg (by simpa using h)]

lemma calculate_streak_mem (ds : List Int) (t : Int) :
    ∀ j < calculate_streak ds t, (t - (j : Int)) ∈ ds := by
  intro j hj
  have := streakLoop_mem ds t 100 0 j (by simpa [calculate_streak] using hj)
  simpa using this

lemma calculate_streak_stop (ds : List Int) (t : Int) (h : calculate_streak ds t < 100) :
    (t - ((calculate_streak ds t : Nat) : Int)) ∉ ds := by
  have := streakLoop_stop ds t 100 0 (by simpa [calculate_streak] using h)
  simpa [calculate_streak] using this

/- ### Claim theorems -/

/-- Claim C1: `suggest_timebox` is a total function evaluating the four
rules top to bottom with first match winning: `commit_count ≥ 20 ∧
intensity > 50` yields the sprint row, otherwise `commit_count ≥ 10` the
moderate deep row, otherwise `commit_count > 0` the low deep row, otherwise
the pomodoro row; its output is always one of the four rows; `(25, 80)`
maps to the sprint row and `(0, 0)` to the pomodoro row. -/
theorem C1_suggest_timebox_table (c i : Nat) :
    (c ≥ 20 ∧ i > 50 →
      suggest_timebox c i = ("High activity: 45 min sprint + 5 min break", "sprint")) ∧
    (¬(c ≥ 20 ∧ i > 50) → c ≥ 10 →
      suggest_timebox c i = ("Moderate activity: 60 min deep work + 10 min break", "deep")) ∧
    (¬(c ≥ 20 ∧ i > 50) → ¬(c ≥ 10) → c > 0 →
      suggest_timebox c i = ("Low activity: 90 min deep work + 15 min break", "deep")) ∧
    (¬(c ≥ 20 ∧ i > 50) → ¬(c ≥ 10) → ¬(c > 0) →
      suggest_timebox c i
        = ("No recent commits: Start with a 25 min Pomodoro + 5 min break", "pomodoro")) ∧
    suggest_timebox c i ∈
      [("High activity: 45 min sprint + 5 min break", "sprint"),
       ("Moderate activity: 60 min deep work + 10 min break", "deep"),
       ("Low activity: 90 min deep work + 15 min break", "deep"),
       ("No recent commits: Start with a 25 min Pomodoro + 5 min break", "pomodoro")] ∧
    suggest_timebox 25 80 = ("High activity: 45 min sprint + 5 min break", "sprint") ∧
    suggest_timebox 0 0
      = ("No recent commits: Start with a 25 min Pomodoro + 5 min break", "pomodoro") := by
  refine ⟨?_, ?_, ?_, ?_, ?_, by decide, by decide⟩
  · intro h1
    unfold suggest_timebox
    rw [if_pos h1]
  · intro h1 h2
    unfold suggest_timebox
    rw [if_neg h1, if_pos h2]
  · intro h1 h2 h3
    unfold suggest_timebox
    rw [if_neg h1, if_neg h2, if_pos h3]
  · intro h1 h2 h3
    unfold suggest_timebox
    rw [if_neg h1, if_neg h2, if_neg h3]
  · unfold suggest_timebox
    split_ifs <;> simp

theorem C1_witness :
    suggest_timebox 25 80 = ("High activity: 45 min sprint + 5 min break", "sprint") :=
  (C1_suggest_timebox_table 25 80).1 (by omega)

/-- Claim C3: for every environment and window `w`,
`get_commit_count_last_days` returns as `commit_count` the number of
day-strings of the chosen source falling within the last `w` calendar days
(today inclusive) counted with multiplicity, and as active days exactly the
distinct such day-strings; on the source `["2024-01-01","2024-01-01",
"2024-01-02"]` (epoch days 19723, 19723, 19724) with `w = 7` and today
2024-01-02 it returns count 3 and the two distinct days. -/
theorem C3_window_accounting (env : Env) (w : Nat) :
    (get_commit_count_last_days env w).1
      = ((chosenDates env).filter (fun d => inWindow env.today w d)).length ∧
    (∀ d : Int, d ∈ (get_commit_count_last_days env w).2
      ↔ (inWindow env.today w d = true ∧ d ∈ chosenDates env)) ∧
    (get_commit_count_last_days env w).2.Nodup ∧
    get_commit_count_last_days exampleEnv 7 = (3, [19724, 19723]) :=
  ⟨get_fst env w, get_snd_mem env w, get_snd_nodup env w, by decide⟩

/-- Claim C4: `calculate_streak` walks backward from today over at most 100
offsets: the result is at most 100; it is 0 whenever today is absent; every
offset below the result is a present day; the first offset at the result
(when below 100) is a missing day; and the spec's three examples hold (with
today = epoch day 19724). -/
theorem C4_streak_walk (ds : List Int) (t : Int) :
    calculate_streak ds t ≤ 100 ∧
    (t ∉ ds → calculate_streak ds t = 0) ∧
    (∀ j < calculate_streak ds t, (t - (j : Int)) ∈ ds) ∧
    (calculate_streak ds t < 100 →
      (t - ((calculate_streak ds t : Nat) : Int)) ∉ ds) ∧
    calculate_streak [19724, 19723, 19722] 19724 = 3 ∧
    calculate_streak [19723] 19724 = 0 ∧
    calculate_streak ([] : List Int) 19724 = 0 :=
  ⟨calculate_streak_le ds t, calculate_streak_today_absent ds t,
   calculate_streak_mem ds t, calculate_streak_stop ds t,
   by decide, by decide, by decide⟩

theorem C4_witness :
    calculate_streak ([] : List Int) 0 = 0 ∧ (0 : Int) ∉ ([] : List Int) :=
  ⟨(C4_streak_walk [] 0).2.1 (by decide), by decide⟩

/-- Claim C5 fails on the code: with active days `{yesterday, yesterday-1}`
(epoch days 19723 and 19722, today = 19724) the streak is 0, not the 2 the
claim demands — `calculate_streak` breaks out immediately when today
(offset 0) is absent. -/
theorem C5_counterexample :
    calculate_streak [19723, 19722] 19724 = 0 ∧
    calculate_streak [19723, 19722] 19724 ≠ 2 := by
  decide

/-- Claim C5 (amended): for every set of active days in which today is
absent — even when yesterday is present — the streak computation returns 0;
a streak never ends yesterday. -/
theorem C5_amended_today_absent (ds : List Int) (t : Int) (h : t ∉ ds) :
    calculate_streak ds t = 0 :=
  calculate_streak_today_absent ds t h

theorem C5_witness : calculate_streak [19723, 19722] 19724 = 0 :=
  C5_amended_today_absent [19723, 19722] 19724 (by decide)

/-- Claim C7: appending a session record to a well-formed store and
reloading yields the old sequence with exactly the new record at the end:
the last element equals the appended record field by field (the timestamp
string is stored verbatim), the first `l.length` records are unchanged and
in order, and the length grows by exactly one. -/
theorem C7_round_trip (l : List SessionEntry) (ts sugg : String)
    (intensity : Nat) (stype : String) :
    load_json (log_session (.parseable l) ts sugg intensity stype)
      = l ++ [⟨ts, sugg, intensity, stype⟩] ∧
    (load_json (log_session (.parseable l) ts sugg intensity stype)).getLast?
      = some ⟨ts, sugg, intensity, stype⟩ ∧
    (load_json (log_session (.parseable l) ts sugg intensity stype)).take l.length
      = l ∧
    (load_json (log_session (.parseable l) ts sugg intensity stype)).length
      = l.length + 1 := by
  refine ⟨rfl, ?_, ?_, ?_⟩
  · show (l ++ [(⟨ts, sugg, intensity, stype⟩ : SessionEntry)]).getLast? = _
    simp
  · show (l ++ [(⟨ts, sugg, intensity, stype⟩ : SessionEntry)]).take l.length = _
    exact List.take_left l _
  · show (l ++ [(⟨ts, sugg, intensity, stype⟩ : SessionEntry)]).length = _
    simp

/-- Claim C9: when a sessions or moods backing file holds unparseable
content, `_load_json` yields `[]` instead of raising, so the append in
`log_session` / `log_mood` rewrites the file as a one-element sequence
holding only the new record — all previously persisted records are
discarded. -/
theorem C9_corrupt_store_discards (ts sugg : String) (intensity : Nat)
    (stype : String) (m : Int) :
    load_json (StoreContent.corrupt : StoreContent SessionEntry) = [] ∧
    load_json (StoreContent.corrupt : StoreContent MoodEntry) = [] ∧
    log_session .corrupt ts sugg intensity stype
      = .parseable [⟨ts, sugg, intensity, stype⟩] ∧
    log_mood .corrupt ts m = .parseable [⟨ts, m⟩] :=
  ⟨rfl, rfl, rfl, rfl⟩

/-- Claim C2 fails on the code: the fallback in
`get_commit_count_last_days` tests `len(dates) < 3` on the raw local list —
one entry per commit — not on distinct days.  In `oneDayEnv` the local log
has 3 commits on a single distinct day and a token is configured, yet the
local result is kept, so "remote used exclusively iff fewer than 3 distinct
days" is false there. -/
theorem C2_counterexample :
    ¬((chosenDates oneDayEnv = oneDayEnv.remoteDates)
      ↔ oneDayEnv.localDates.dedup.length < 3) := by
  decide

/-- Claim C2 (amended): with a git root and a configured credential, the
aggregator uses the RemoteSource result exclusively (never a union) if and
only if the raw LocalSource result holds fewer than 3 entries — entries are
counted per commit, not per distinct day — and otherwise keeps the local
result alone. -/
theorem C2_amended_fallback (env : Env) (hbase : env.baseDir = true)
    (htok : env.token = true) :
    (env.localDates.length < 3 → chosenDates env = env.remoteDates) ∧
    (3 ≤ env.localDates.length → chosenDates env = env.localDates) := by
  constructor
  · intro h3
    simp only [chosenDates, hbase, if_true, htok, Bool.and_true]
    have : (env.localDates.isEmpty || decide (env.localDates.length < 3)) = true := by
      simp [h3]
    rw [this, if_pos rfl]
  · intro h3
    simp only [chosenDates, hbase, if_true, htok, Bool.and_true]
    have hne : env.localDates ≠ [] := by
      intro hnil
      rw [hnil] at h3
      simp at h3
    have : (env.localDates.isEmpty || decide (env.localDates.length < 3)) = false := by
      simp [List.isEmpty_iff, hne]
      omega
    rw [this]
    simp

theorem C2_witness : chosenDates oneDayEnv = oneDayEnv.localDates :=
  (C2_amended_fallback oneDayEnv rfl rfl).2 (by decide)

/-- Claim C6: the classifier is monotone for the tier order
sprint (2) > deep (1) > pomodoro (0): a dominated pair never maps to a
strictly higher tier than a dominating pair, and every input maps to one of
the four defined labels. -/
theorem C6_classifier_monotone (c1 i1 c2 i2 : Nat) (hc : c1 ≤ c2) (hi : i1 ≤ i2) :
    tierOf (suggest_timebox c1 i1).2 ≤ tierOf (suggest_timebox c2 i2).2 ∧
    (suggest_timebox c1 i1).1 ∈
      ["High activity: 45 min sprint + 5 min break",
       "Moderate activity: 60 min deep work + 10 min break",
       "Low activity: 90 min deep work + 15 min break",
       "No recent commits: Start with a 25 min Pomodoro + 5 min break"] := by
  constructor
  · unfold suggest_timebox tierOf
    split_ifs <;> simp_all <;> omega
  · unfold suggest_timebox
    split_ifs <;> simp

theorem C6_witness :
    tierOf (suggest_timebox 0 0).2 ≤ tierOf (suggest_timebox 25 80).2 :=
  (C6_classifier_monotone 0 0 25 80 (by omega) (by omega)).1

/-- Claim C8: the quiet-hours predicate holds exactly for hours 22, 23 and
[0,7) (among real hours, below 24); during quiet hours `run` prints only
the quiet-hours message and returns — no recommendation, no streak, no
timer, and the session, mood, and note stores are untouched (gating, not an
error: `run` still returns normally); outside quiet hours the
recommendation pipeline proceeds and produces the classifier's output. -/
theorem C8_quiet_hours_gate (env : Env) (nowIso : String) (stores : Stores)
    (ui : UserInput) :
    (env.hour < 24 →
      (is_in_quiet_hours env.hour = true
        ↔ (env.hour = 22 ∨ env.hour = 23 ∨ env.hour < 7))) ∧
    (is_in_quiet_hours env.hour = true →
      run env nowIso stores ui
        = { quietMessage := true, suggestion := none, streak := none,
            timerStarted := false, stores := stores }) ∧
    (is_in_quiet_hours env.hour = false →
      (run env nowIso stores ui).quietMessage = false ∧
      (run env nowIso stores ui).suggestion
        = some (suggest_timebox (get_commit_count_last_days env 7).1
            (get_work_intensity env))) := by
  refine ⟨?_, ?_, ?_⟩
  · intro h24
    simp only [is_in_quiet_hours, QUIET_HOURS]
    norm_num
    omega
  · intro hq
    simp [run, hq]
  · intro hq
    by_cases hui : ui.startTimer <;> simp [run, hq, hui]

theorem C8_witness :
    is_in_quiet_hours 23 = true ∧
    run { exampleEnv with hour := 23 } "2024-01-02T23:00:00" stores0 ui0
      = { quietMessage := true, suggestion := none, streak := none,
          timerStarted := false, stores := stores0 } := by
  have h := C8_quiet_hours_gate { exampleEnv with hour := 23 }
    "2024-01-02T23:00:00" stores0 ui0
  exact ⟨by decide, h.2.1 (by decide)⟩

/-- Claim C10: `run` feeds the day set of `get_commit_count_last_days` with
its default 7-day window into `calculate_streak`, and since every member of
that set lies within the last 7 calendar days, any streak `run` reports is
at most 7 — so the 100-offset lookback is never exhausted through `run`
and the `streak >= 10` achievement branch is unreachable from `run`. -/
theorem C10_run_streak_bound (env : Env) (nowIso : String) (stores : Stores)
    (ui : UserInput) :
    (is_in_quiet_hours env.hour = false →
      (run env nowIso stores ui).streak
        = some (calculate_streak (get_commit_count_last_days env 7).2 env.today)) ∧
    (∀ s : Nat, (run env nowIso stores ui).streak = some s →
      s ≤ 7 ∧ show_achievements s ≠ AchievementMsg.epic) := by
  have hle : calculate_streak (get_commit_count_last_days env 7).2 env.today ≤ 7 := by
    by_contra hgt
    push_neg at hgt
    have h7 : (env.today - ((7 : Nat) : Int)) ∈ (get_commit_count_last_days env 7).2 :=
      calculate_streak_mem _ _ 7 (by omega)
    have hin := ((get_snd_mem env 7 _).mp h7).1
    simp only [inWindow, decide_eq_true_eq] at hin
    omega
  constructor
  · intro hq
    by_cases hui : ui.startTimer <;> simp [run, hq, hui]
  · intro s hs
    by_cases hq : is_in_quiet_hours env.hour
    · simp [run, hq] at hs
    · have hval : s = calculate_streak (get_commit_count_last_days env 7).2 env.today := by
        by_cases hui : ui.startTimer <;>
          simp [run, hq, hui] at hs <;> omega
      refine ⟨by omega, ?_⟩
      have hs10 : ¬s ≥ 10 := by omega
      unfold show_achievements
      rw [if_neg hs10]
      split_ifs <;> decide

theorem C10_witness :
    (run exampleEnv "2024-01-02T12:00:00" stores0 ui0).streak = some 2 ∧
    2 ≤ 7 ∧ show_achievements 2 ≠ AchievementMsg.epic := by
  have h := C10_run_streak_bound exampleEnv "2024-01-02T12:00:00" stores0 ui0
  have h1 := h.1 (by decide)
  have h2 : calculate_streak (get_commit_count_last_days exampleEnv 7).2
      exampleEnv.today = 2 := by decide
  rw [h2] at h1
  exact ⟨h1, h.2 2 h1⟩

end Timebox
